import Mathlib

/-!
Shallow embedding of the feedback-bot sources, `main.py` and `database.py`.

The Python module keeps three global mutable containers:
`pending_feedback` - a string-keyed dict whose keys are either one of the
prefixed families "waiting_feedback:UID", "waiting_files:UID",
"waiting_name:UID", "waiting_phone:UID", "branch:UID", "user_name:UID",
"files:UID", or an md5 hex digest naming a pending submission;
`media_groups` - media-group id to collected messages; and
`processing_media_groups` - the set of in-flight media-group ids.
An md5 hex digest never contains a colon, so the prefixed key families and
the hash keys can never collide; the dict is therefore embedded as a record
with one association list per key family, plus the two other globals.
Association lists are used with dict semantics: lookup by key, insert
overwrites, erase removes the binding.

Handlers are embedded as pure functions from the incoming event and the
global state to the new state plus the list of outbound effects (replies,
message edits, callback alerts, scheduled tasks).  Blocking collaborator
calls are parameterized: `dl` is the download oracle (file_id to local
path, `none` on download failure), `avail` says whether the persistence
store is reachable, `hashFn` embeds `hash_user_id`, and the rate-limit
lookup outcome is passed as an `Except`.  Timestamps are integer seconds.
-/

/-- Dict lookup on an association list. -/
def mLookup [BEq α] (m : List (α × β)) (k : α) : Option β :=
  (m.find? (fun p => p.1 == k)).map Prod.snd

/-- Dict deletion (`dict.pop`) on an association list. -/
def mErase [BEq α] (m : List (α × β)) (k : α) : List (α × β) :=
  m.filter (fun p => p.1 != k)

/-- Dict assignment (insert-or-overwrite) on an association list. -/
def mInsert [BEq α] (m : List (α × β)) (k : α) (v : β) : List (α × β) :=
  (k, v) :: mErase m k

/-- Set membership for a list used with set semantics. -/
def sMem [BEq α] (s : List α) (a : α) : Bool :=
  s.contains a

/-- Set deletion (`set.discard`). -/
def sErase [BEq α] (s : List α) (a : α) : List α :=
  s.filter (fun x => x != a)

/-- Set insertion (`set.add` / dict key marking). -/
def sInsert [BEq α] (s : List α) (a : α) : List α :=
  if s.contains a then s else a :: s

/-- The value stored in `pending_feedback` under a feedback hash:
the dict literal built at main.py:235, with fields "text", "branch",
"files".  Every hash-keyed write in the source stores this dict shape, so
the legacy plain-string fallback branches of the source are dead code. -/
structure Pending where
  text : String
  branch : String
  files : List (String × String)
  deriving DecidableEq

/-- An incoming chat message, restricted to the fields the handlers read.
`photo` holds the file_id of the largest photo size (the source reads
`message.photo[-1].file_id`); `document` the document's file_id. -/
structure Msg where
  messageId : Nat
  fromUser : Nat
  text : Option String
  caption : Option String
  photo : Option String
  document : Option String
  mediaGroupId : Option String
  deriving DecidableEq

/-- The global mutable state of `main.py`: the `pending_feedback` dict
split by key family, plus `media_groups` and `processing_media_groups`. -/
structure St where
  waitingFeedback : List Nat
  waitingFiles : List (Nat × String)
  waitingName : List (Nat × String)
  waitingPhone : List (Nat × String)
  branchOf : List (Nat × String)
  userName : List (Nat × String)
  filesKey : List Nat
  subs : List (String × Pending)
  mediaGroups : List (String × List Msg)
  processing : List String
  deriving DecidableEq

/-- The empty global state (module start). -/
def initSt : St :=
  ⟨[], [], [], [], [], [], [], [], [], []⟩

/-- Outbound effects produced by a handler invocation. -/
inductive Out where
  | reply (targetMsg : Nat) (txt : String)
  | edit (txt : String)
  | alert (txt : String)
  | ack
  | schedule (gid : String) (uid : Nat) (fh : String)
  deriving DecidableEq

/-- The persistent store of `database.py`: the `feedback`,
`feedback_files` and `feedback_submissions` tables.  A feedback row is
(id, message, branch, name, phone); a file row is (feedback_id, path,
kind); a submissions row is (user_id_hash, last_submission_time). -/
structure Db where
  nextId : Nat
  feedback : List (Nat × String × String × Option String × Option String)
  files : List (Nat × String × String)
  submissions : List (String × Int)
  deriving DecidableEq

/-- The empty store. -/
def initDb : Db :=
  ⟨0, [], [], []⟩

/-- `database.check_rate_limit` (database.py:100).  `dbUp` embeds the
`if not db` guard; `lookup` is the outcome of the SELECT on
`feedback_submissions` (`.error` when the query raises).  Returns
(can_submit, last_submission_time). -/
def check_rate_limit (dbUp : Bool) (lookup : Except Unit (Option Int))
    (now cooldownSeconds : Int) : Bool × Option Int :=
  if !dbUp then (true, none)
  else
    match lookup with
    | .error _ => (true, none)
    | .ok none => (true, none)
    | .ok (some last) =>
      if now - last < cooldownSeconds then (false, some last)
      else (true, some last)

/-- `database.save_feedback_to_db` (database.py:145).  Inserts the
feedback row and all file rows in one transaction; raises when the store
is unreachable (`avail = false` embeds both the `if not db` guard and a
raising INSERT). -/
def save_feedback_to_db (avail : Bool) (message branch : String)
    (name phone : Option String) (filePaths : List (String × String))
    (db : Db) : Except Unit (Nat × Db) :=
  if !avail then .error ()
  else
    let id := db.nextId
    .ok (id, { db with
      nextId := id + 1,
      feedback := db.feedback ++ [(id, message, branch, name, phone)],
      files := db.files ++ filePaths.map (fun ft => (id, ft.1, ft.2)) })

/-- `database.update_user_submission_time` (database.py:206): upserts the
hashed identity's last submission time; errors are swallowed, so failure
and `db` unavailable are both the identity. -/
def update_user_submission_time (avail : Bool) (hashFn : Nat → String)
    (uid : Nat) (now : Int) (db : Db) : Db :=
  if !avail then db
  else { db with submissions := mInsert db.submissions (hashFn uid) now }

/-- `main.save_feedback` (main.py:260): persists via
`save_feedback_to_db`, then records the submission time for rate
limiting; re-raises any persistence failure. -/
def save_feedback (avail : Bool) (hashFn : Nat → String)
    (text branch : String) (uid : Nat) (name phone : Option String)
    (filePaths : List (String × String)) (db : Db) (now : Int) :
    Except Unit Db :=
  match save_feedback_to_db avail text branch name phone filePaths db with
  | .error e => .error e
  | .ok (_, db1) => .ok (update_user_submission_time avail hashFn uid now db1)

/-- Python truthy string or-else: `a or b`, where an absent or empty
string falls through to `b`. -/
def strOr (a : Option String) (b : String) : String :=
  match a with
  | some s => if s == "" then b else s
  | none => b

/-- `text.startswith('/')`, embedded on the first character so that it
evaluates by kernel reduction on literals. -/
def startsWithSlash (t : String) : Bool :=
  match t.data with
  | [] => false
  | c :: _ => c == '/'

/-- Reply text of main.py:113 (rate-limited /new). -/
def waitReplyText (secondsLeft : Int) : String :=
  "⏰ Вы уже отправили отзыв недавно. Пожалуйста, подождите еще " ++
    toString secondsLeft ++ " секунд(ы) перед повторной отправкой."

/-- Prompt of main.py:131: the branch-choice prompt (sent together with
the branch keyboard). -/
def branchPromptText : String :=
  "Ваше обращение полностью анонимно и конфиденциально.\n\n" ++
  "Вы можете указать свои контактные данные или имя по желанию — это необязательно.\n\n" ++
  "Сначала, пожалуйста, выберите ваш филиал:"

/-- `main.handle_new` (main.py:104).  Calls the rate limiter with the
default 30-second cooldown; when rejected, replies with the remaining
wait; otherwise removes the seven per-user keys from `pending_feedback`
and emits the branch-choice prompt.  The source's `seconds_left`
arithmetic reads the returned timestamp (present whenever `can_submit`
is false); `getD 0` stands for that unreachable-`None` access. -/
def handle_new (dbUp : Bool) (lookup : Except Unit (Option Int))
    (now : Int) (msg : Msg) (st : St) : St × List Out :=
  let uid := msg.fromUser
  let rl := check_rate_limit dbUp lookup now 30
  if !rl.1 then
    let timePassed := now - rl.2.getD 0
    let secondsLeft := max 0 (30 - timePassed)
    (st, [Out.reply msg.messageId (waitReplyText secondsLeft)])
  else
    let st1 := { st with
      waitingFeedback := st.waitingFeedback.filter (fun k => k != uid),
      waitingFiles := st.waitingFiles.filter (fun p => p.1 != uid),
      waitingName := st.waitingName.filter (fun p => p.1 != uid),
      waitingPhone := st.waitingPhone.filter (fun p => p.1 != uid),
      branchOf := st.branchOf.filter (fun p => p.1 != uid),
      userName := st.userName.filter (fun p => p.1 != uid),
      filesKey := st.filesKey.filter (fun k => k != uid) }
    (st1, [Out.reply msg.messageId branchPromptText])

/-- `main.handle_branch_selection` (main.py:153): stores the branch,
marks the user as waiting for feedback text, edits the prompt. -/
def handle_branch_selection (uid : Nat) (branch : String) (st : St) :
    St × List Out :=
  let st1 := { st with
    branchOf := mInsert st.branchOf uid branch,
    waitingFeedback := sInsert st.waitingFeedback uid }
  (st1, [Out.edit ("✅ Филиал выбран: " ++ branch ++
      "\n\nТеперь, пожалуйста, напишите ваш отзыв:"), Out.ack])

/-- Re-prompt of main.py:221 (text expected). -/
def askTextReply : String :=
  "Пожалуйста, отправьте ваш отзыв текстовым сообщением."

/-- Prompt of main.py:253 (feedback stored, attach-files question). -/
def attachQuestionText : String :=
  "✅ Спасибо за ваш отзыв!\n\nХотите прикрепить изображения или файлы?"

/-- Stale-reference reply used at main.py:431/600/619 (message form). -/
def notFoundReply : String :=
  "Отзыв не найден. Пожалуйста, отправьте снова."

/-- Re-prompt of main.py:473 (a non-file message in file mode). -/
def sendFileReply : String :=
  "Пожалуйста, отправьте изображение или файл."

/-- Prompt of main.py:412 (media group processed). -/
def filesReceivedText (n : Nat) : String :=
  "✅ Файлы получены! Всего файлов: " ++ toString n ++
    "\n\nЧто вы хотите сделать?"

/-- Prompt of main.py:496 (single file stored). -/
def fileReceivedText (n : Nat) : String :=
  "✅ Файл получен! Всего файлов: " ++ toString n ++
    "\n\nЧто вы хотите сделать?"

/-- `main.handle_file_upload` (main.py:421).  `dl` is the
`download_file` oracle (file_id to stored path, `none` on failure). -/
def handle_file_upload (dl : String → Option String) (msg : Msg)
    (uid : Nat) (st : St) : St × List Out :=
  match mLookup st.waitingFiles uid with
  | none => (st, [])
  | some fh =>
    match mLookup st.subs fh with
    | none =>
      ({ st with waitingFiles := mErase st.waitingFiles uid },
        [Out.reply msg.messageId notFoundReply])
    | some fd =>
      match msg.mediaGroupId with
      | some gid =>
        let isFirst := (mLookup st.mediaGroups gid).isNone
        let st1 := if isFirst
          then { st with mediaGroups := mInsert st.mediaGroups gid [] }
          else st
        let outs := if isFirst then [Out.schedule gid uid fh] else []
        let collected := (mLookup st1.mediaGroups gid).getD []
        let st2 :=
          if collected.any (fun m => m.messageId == msg.messageId) then st1
          else { st1 with
            mediaGroups := mInsert st1.mediaGroups gid (collected ++ [msg]) }
        (st2, outs)
      | none =>
        let filePaths : List (String × String) :=
          (match msg.photo with
           | some fid =>
             match dl fid with
             | some p => [(p, "photo")]
             | none => []
           | none => []) ++
          (match msg.document with
           | some fid =>
             match dl fid with
             | some p => [(p, "document")]
             | none => []
           | none => [])
        if filePaths.isEmpty then (st, [Out.reply msg.messageId sendFileReply])
        else
          let allFiles := fd.files ++ filePaths
          let st1 := { st with
            subs := mInsert st.subs fh { fd with files := allFiles } }
          (st1, [Out.reply msg.messageId (fileReceivedText allFiles.length)])

/-- `main.handle_feedback` (main.py:196).  `newHash` stands for the md5
digest computed at main.py:234 from the text, branch, user id and clock. -/
def handle_feedback (dl : String → Option String) (msg : Msg)
    (newHash : String) (st : St) : St × List Out :=
  let uid := msg.fromUser
  if (mLookup st.waitingFiles uid).isSome then
    handle_file_upload dl msg uid st
  else if !(sMem st.waitingFeedback uid) then
    (st, [])
  else
    let feedbackText := strOr msg.text (strOr msg.caption "")
    if startsWithSlash feedbackText then (st, [])
    else if feedbackText == "" then
      (st, [Out.reply msg.messageId askTextReply])
    else
      let st1 := { st with
        waitingFeedback := sErase st.waitingFeedback uid }
      let branch := (mLookup st1.branchOf uid).getD "Unknown"
      let st2 := { st1 with branchOf := mErase st1.branchOf uid }
      let st3 := { st2 with
        subs := mInsert st2.subs newHash ⟨feedbackText, branch, []⟩ }
      (st3, [Out.reply msg.messageId attachQuestionText])

/-- One flattened attachment reference of a message: kind and file_id,
photo first then document, matching the two `if` blocks of the loop at
main.py:366-383. -/
def refsOfMsg (m : Msg) : List (String × String) :=
  (match m.photo with
   | some fid => [("photo", fid)]
   | none => []) ++
  (match m.document with
   | some fid => [("document", fid)]
   | none => [])

/-- All attachment references of a collected media group, in processing
order. -/
def msgRefs : List Msg → List (String × String)
  | [] => []
  | m :: rest => refsOfMsg m ++ msgRefs rest

/-- The download loop of main.py:362-383, flattened over the reference
list: each reference is skipped when its file_id was already processed in
this batch, otherwise downloaded; successful downloads append
(path, kind) and record the file_id in the processed set.  A failed
download is logged and skipped without recording the file_id. -/
def collectRefs (dl : String → Option String) :
    List (String × String) → List String → List (String × String)
  | [], _ => []
  | (kind, fid) :: rest, processed =>
    if processed.contains fid then collectRefs dl rest processed
    else
      match dl fid with
      | some p => (p, kind) :: collectRefs dl rest (fid :: processed)
      | none => collectRefs dl rest processed

/-- `main.process_media_group` (main.py:340).  The in-flight marker is
added on entry and discarded in the `finally` block, so a state returned
by a completed invocation carries the caller's original `processing` set;
the guard branch models a second invocation racing with one that still
holds the marker. -/
def process_media_group (dl : String → Option String) (gid : String)
    (uid : Nat) (fh : String) (st : St) : St × List Out :=
  if st.processing.contains gid then (st, [])
  else
    let msgs? := mLookup st.mediaGroups gid
    let st1 := { st with mediaGroups := mErase st.mediaGroups gid }
    match msgs? with
    | none => (st1, [])
    | some msgs =>
      if msgs.isEmpty then (st1, [])
      else
        match mLookup st1.subs fh with
        | none => (st1, [])
        | some fd =>
          let filePaths := collectRefs dl (msgRefs msgs) []
          if filePaths.isEmpty then (st1, [])
          else
            let existingPaths := fd.files.map Prod.fst
            let newFiles :=
              filePaths.filter (fun e => !(existingPaths.contains e.1))
            let st2 :=
              if newFiles.isEmpty then st1
              else { st1 with
                subs := mInsert st1.subs fh
                  { fd with files := fd.files ++ newFiles } }
            let fileCount := fd.files.length + newFiles.length
            let lastId := ((msgs.getLast?).map Msg.messageId).getD 0
            (st2, [Out.reply lastId (filesReceivedText fileCount)])

/-- Prompt of main.py:313 (please send your files). -/
def sendFilesPrompt : String :=
  "📎 Пожалуйста, отправьте ваши изображения или файлы. Вы можете отправить несколько файлов.\n\n" ++
  "После того, как закончите, используйте кнопки ниже, чтобы продолжить."

/-- Prompt of main.py:332/518 (identity decision). -/
def identityQuestionText : String :=
  "✅ Спасибо за ваш отзыв!\n\nХотите добавить ваши данные или оставить отправку анонимной?"

/-- `main.handle_file_attachment_yes` (main.py:305). -/
def handle_file_attachment_yes (uid : Nat) (fh : String) (st : St) :
    St × List Out :=
  ({ st with waitingFiles := mInsert st.waitingFiles uid fh },
    [Out.edit sendFilesPrompt, Out.ack])

/-- `main.handle_file_attachment_no` (main.py:320). -/
def handle_file_attachment_no (fh : String) (st : St) : St × List Out :=
  match mLookup st.subs fh with
  | none => (st, [Out.alert notFoundReply])
  | some _ => (st, [Out.edit identityQuestionText, Out.ack])

/-- `main.handle_file_done` (main.py:502). -/
def handle_file_done (uid : Nat) (fh : String) (st : St) : St × List Out :=
  let st1 := { st with waitingFiles := mErase st.waitingFiles uid }
  match mLookup st1.subs fh with
  | none => (st1, [Out.alert notFoundReply])
  | some _ => (st1, [Out.edit identityQuestionText, Out.ack])

/-- Success edit of main.py:560 (anonymous save). -/
def savedAnonText : String :=
  "✅ Ваш отзыв был сохранен анонимно.\n\nСпасибо за вашу отправку!"

/-- Retry alert of main.py:566 (save failed on the anonymous path). -/
def saveErrorAlert : String :=
  "Ошибка при сохранении отзыва. Пожалуйста, попробуйте снова."

/-- `main.handle_keep_anonymous` (main.py:544).  The pending entry is
popped from the dict before the persistence attempt; the except branch
shows the retry alert without restoring it. -/
def handle_keep_anonymous (avail : Bool) (hashFn : Nat → String)
    (now : Int) (uid : Nat) (fh : String) (st : St) (db : Db) :
    St × Db × List Out :=
  match mLookup st.subs fh with
  | none => (st, db, [Out.alert notFoundReply])
  | some fd =>
    let st1 := { st with subs := mErase st.subs fh }
    match save_feedback avail hashFn fd.text fd.branch uid none none
        fd.files db now with
    | .ok db1 => (st1, db1, [Out.edit savedAnonText])
    | .error _ => (st1, db, [Out.alert saveErrorAlert])

/-- `main.handle_add_details` (main.py:569). -/
def handle_add_details (uid : Nat) (fh : String) (st : St) : St × List Out :=
  match mLookup st.subs fh with
  | none => (st, [Out.alert notFoundReply])
  | some _ =>
    ({ st with waitingName := mInsert st.waitingName uid fh },
      [Out.edit "Пожалуйста, укажите ваше имя:", Out.ack])

/-- Reply of main.py:607 (name stored, phone requested). -/
def askPhoneReply : String :=
  "Спасибо! Теперь, пожалуйста, укажите ваш номер телефона:"

/-- Success reply of main.py:629 (save with details). -/
def savedDetailsText : String :=
  "✅ Ваш отзыв был сохранен с вашими данными.\n\nСпасибо за вашу отправку!"

/-- Failure reply of main.py:635 (save failed on the details path). -/
def saveErrorReply : String :=
  "❌ Извините, произошла ошибка при сохранении вашего отзыва. Пожалуйста, попробуйте позже."

/-- `main.handle_details_submission` (main.py:587).  On the phone branch
the waiting key, the pending entry and the stored name are all popped
before the persistence attempt. -/
def handle_details_submission (avail : Bool) (hashFn : Nat → String)
    (now : Int) (msg : Msg) (st : St) (db : Db) : St × Db × List Out :=
  let uid := msg.fromUser
  match mLookup st.waitingName uid with
  | some fh =>
    let st1 := { st with waitingName := mErase st.waitingName uid }
    let name := (msg.text.getD "").trim
    match mLookup st1.subs fh with
    | none => (st1, db, [Out.reply msg.messageId notFoundReply])
    | some _ =>
      let st2 := { st1 with
        userName := mInsert st1.userName uid name,
        waitingPhone := mInsert st1.waitingPhone uid fh }
      (st2, db, [Out.reply msg.messageId askPhoneReply])
  | none =>
    match mLookup st.waitingPhone uid with
    | some fh =>
      let st1 := { st with waitingPhone := mErase st.waitingPhone uid }
      let fd? := mLookup st1.subs fh
      let st2 := { st1 with subs := mErase st1.subs fh }
      let name := (mLookup st2.userName uid).getD "Unknown"
      let st3 := { st2 with userName := mErase st2.userName uid }
      let phone := (msg.text.getD "").trim
      match fd? with
      | none => (st3, db, [Out.reply msg.messageId notFoundReply])
      | some fd =>
        match save_feedback avail hashFn fd.text fd.branch uid (some name)
            (some phone) fd.files db now with
        | .ok db1 => (st3, db1, [Out.reply msg.messageId savedDetailsText])
        | .error _ => (st3, db, [Out.reply msg.messageId saveErrorReply])
    | none => (st, db, [])

/-- `main.WaitingForDetailsFilter.__call__` (main.py:55): false when the
message has no text, empty text, or text beginning with a slash;
otherwise true iff a waiting_name or waiting_phone key exists. -/
def waitingForDetailsFilter (st : St) (uid : Nat) (text : Option String) :
    Bool :=
  match text with
  | none => false
  | some t =>
    if t == "" then false
    else if startsWithSlash t then false
    else (mLookup st.waitingName uid).isSome ||
      (mLookup st.waitingPhone uid).isSome

/-- The message-handler dispatch of `main.main` (main.py:672-673) for a
message not matching the /start or /new command filters:
`handle_details_submission` runs only when `WaitingForDetailsFilter`
accepts, otherwise `handle_feedback` runs. -/
def dispatchMessage (dl : String → Option String) (avail : Bool)
    (hashFn : Nat → String) (now : Int) (msg : Msg) (newHash : String)
    (st : St) (db : Db) : St × Db × List Out :=
  if waitingForDetailsFilter st msg.fromUser msg.text then
    handle_details_submission avail hashFn now msg st db
  else
    let r := handle_feedback dl msg newHash st
    (r.1, db, r.2)

theorem mLookup_mInsert_self [BEq α] [LawfulBEq α] (m : List (α × β))
    (k : α) (v : β) : mLookup (mInsert m k v) k = some v := by
  simp [mLookup, mInsert]

theorem mLookup_mErase_self [BEq α] [LawfulBEq α] (m : List (α × β))
    (k : α) : mLookup (mErase m k) k = none := by
  have hf : (mErase m k).find? (fun p => p.1 == k) = none := by
    rw [List.find?_eq_none]
    intro x hx
    have hm := List.of_mem_filter hx
    simp_all
  simp [mLookup, hf]

theorem mErase_mErase [BEq α] (m : List (α × β)) (k : α) :
    mErase (mErase m k) k = mErase m k := by
  simp [mErase, List.filter_filter]

theorem sMem_sErase_self [BEq α] [LawfulBEq α] (s : List α) (a : α) :
    sMem (sErase s a) a = false := by
  induction s with
  | nil => rfl
  | cons x rest ih =>
    by_cases h : x = a
    · simpa [sErase, List.filter_cons, h] using ih
    · have h2 : ¬a = x := fun hh => h hh.symm
      simp_all [sMem, sErase, List.filter_cons, h, List.contains_cons]

theorem sMem_singleton_self [BEq α] [LawfulBEq α] (a : α) :
    sMem [a] a = true := by
  simp [sMem, List.contains_cons]

theorem sErase_singleton_self [BEq α] [LawfulBEq α] (a : α) :
    sErase [a] a = [] := by
  simp [sErase, List.filter_cons]

theorem mErase_singleton_self [BEq α] [LawfulBEq α] (k : α) (v : β) :
    mErase [(k, v)] k = [] := by
  simp [mErase, List.filter_cons]

theorem contains_iff_mem [BEq α] [LawfulBEq α] (l : List α) (a : α) :
    l.contains a = true ↔ a ∈ l :=
  List.elem_iff

/-- C5: when the rate-limit lookup succeeds, a missing record allows the
submission; a present record with timestamp `t` allows it exactly when
`now - t` is at least the cooldown, and in both record-present outcomes
the prior timestamp is returned alongside the decision. -/
theorem check_rate_limit_correct (now cd t : Int) :
    check_rate_limit true (.ok none) now cd = (true, none) ∧
    ((check_rate_limit true (.ok (some t)) now cd).1 = true ↔
      cd ≤ now - t) ∧
    (check_rate_limit true (.ok (some t)) now cd).2 = some t := by
  refine ⟨rfl, ?_, ?_⟩
  · by_cases hlt : now - t < cd <;> simp [check_rate_limit, hlt] <;> omega
  · by_cases hlt : now - t < cd <;> simp [check_rate_limit, hlt]

/-- C6: a failing rate-limit lookup - the SELECT raises, or the pool is
not initialized - yields allowed with no timestamp: the check fails open
and propagates no error. -/
theorem check_rate_limit_fails_open (dbUp : Bool)
    (lookup : Except Unit (Option Int)) (now cd : Int) :
    check_rate_limit dbUp (.error ()) now cd = (true, none) ∧
    check_rate_limit false lookup now cd = (true, none) := by
  constructor
  · cases dbUp <;> rfl
  · rfl

/-- A concrete pending submission used in scenario evaluations. -/
def pend0 : Pending := ⟨"Broken AC", "Chilonzor", []⟩

/-- C1: evaluation at the failing input.  With one pending submission
stored under hash "h1" and the persistence store unreachable,
`handle_keep_anonymous` answers with the retry alert, yet the pending
entry has already been popped: after the failed attempt the submission is
gone from the map, so pressing the button again meets "not found" instead
of retrying the save - the in-memory state is mutated on a failed
finalization even though the user is told to try again. -/
theorem keep_anonymous_failed_save_drops_pending :
    handle_keep_anonymous false (fun _ => "uh") 100 7 "h1"
        { initSt with subs := [("h1", pend0)] } initDb =
      ({ initSt with subs := [] }, initDb, [Out.alert saveErrorAlert]) ∧
    mLookup ({ initSt with subs := [] } : St).subs "h1" = none := by
  constructor
  · rfl
  · rfl

/-- C2 counterexample: a /new issued while the rate limiter allows it,
from a state where the user's earlier flow left a pending submission
under hash "h1", keeps that hash entry in the map: the pending submission
is not discarded, refuting the claim that all prior in-progress data
including the pending submission is removed. -/
theorem handle_new_keeps_pending_submission :
    ((handle_new true (.ok none) 0
        ⟨1, 7, some "/new", none, none, none, none⟩
        { initSt with
          waitingFeedback := [7], branchOf := [(7, "Chilonzor")],
          subs := [("h1", pend0)] }).1).subs = [("h1", pend0)] := by
  rfl

/-- C2 (amended): issuing /new while the rate limiter allows it removes
every waiting-state marker, the stored branch and the stored name for
that user and emits the branch-choice prompt, leaving the user at the
branch-selection step; hash-keyed pending submissions created earlier in
the flow are left in the map (they are not discarded by /new). -/
theorem handle_new_clears_session (dbUp : Bool)
    (lookup : Except Unit (Option Int)) (now : Int) (msg : Msg) (st : St)
    (hallow : (check_rate_limit dbUp lookup now 30).1 = true) :
    sMem ((handle_new dbUp lookup now msg st).1).waitingFeedback
      msg.fromUser = false ∧
    mLookup ((handle_new dbUp lookup now msg st).1).waitingFiles
      msg.fromUser = none ∧
    mLookup ((handle_new dbUp lookup now msg st).1).waitingName
      msg.fromUser = none ∧
    mLookup ((handle_new dbUp lookup now msg st).1).waitingPhone
      msg.fromUser = none ∧
    mLookup ((handle_new dbUp lookup now msg st).1).branchOf
      msg.fromUser = none ∧
    mLookup ((handle_new dbUp lookup now msg st).1).userName
      msg.fromUser = none ∧
    ((handle_new dbUp lookup now msg st).1).subs = st.subs ∧
    (handle_new dbUp lookup now msg st).2 =
      [Out.reply msg.messageId branchPromptText] := by
  refine ⟨?_, ?_, ?_, ?_, ?_, ?_, ?_, ?_⟩ <;>
    simp only [handle_new, hallow, Bool.not_true, Bool.false_eq_true,
      if_false] <;>
    first
      | exact sMem_sErase_self _ _
      | exact mLookup_mErase_self _ _
      | rfl
      | trivial

/-- Witness for the amended C2 theorem at a concrete mid-flow state. -/
theorem handle_new_clears_session_witness :
    (check_rate_limit true (.ok none) 50 30).1 = true ∧
    (sMem ((handle_new true (.ok none) 50
        ⟨1, 7, some "/new", none, none, none, none⟩
        { initSt with
          waitingFeedback := [7], branchOf := [(7, "Jomiy")],
          userName := [(7, "Aziz")], waitingPhone := [(7, "h1")],
          subs := [("h1", pend0)] }).1).waitingFeedback 7 = false ∧
      mLookup ((handle_new true (.ok none) 50
        ⟨1, 7, some "/new", none, none, none, none⟩
        { initSt with
          waitingFeedback := [7], branchOf := [(7, "Jomiy")],
          userName := [(7, "Aziz")], waitingPhone := [(7, "h1")],
          subs := [("h1", pend0)] }).1).waitingFiles 7 = none ∧
      mLookup ((handle_new true (.ok none) 50
        ⟨1, 7, some "/new", none, none, none, none⟩
        { initSt with
          waitingFeedback := [7], branchOf := [(7, "Jomiy")],
          userName := [(7, "Aziz")], waitingPhone := [(7, "h1")],
          subs := [("h1", pend0)] }).1).waitingName 7 = none ∧
      mLookup ((handle_new true (.ok none) 50
        ⟨1, 7, some "/new", none, none, none, none⟩
        { initSt with
          waitingFeedback := [7], branchOf := [(7, "Jomiy")],
          userName := [(7, "Aziz")], waitingPhone := [(7, "h1")],
          subs := [("h1", pend0)] }).1).waitingPhone 7 = none ∧
      mLookup ((handle_new true (.ok none) 50
        ⟨1, 7, some "/new", none, none, none, none⟩
        { initSt with
          waitingFeedback := [7], branchOf := [(7, "Jomiy")],
          userName := [(7, "Aziz")], waitingPhone := [(7, "h1")],
          subs := [("h1", pend0)] }).1).branchOf 7 = none ∧
      mLookup ((handle_new true (.ok none) 50
        ⟨1, 7, some "/new", none, none, none, none⟩
        { initSt with
          waitingFeedback := [7], branchOf := [(7, "Jomiy")],
          userName := [(7, "Aziz")], waitingPhone := [(7, "h1")],
          subs := [("h1", pend0)] }).1).userName 7 = none ∧
      ((handle_new true (.ok none) 50
        ⟨1, 7, some "/new", none, none, none, none⟩
        { initSt with
          waitingFeedback := [7], branchOf := [(7, "Jomiy")],
          userName := [(7, "Aziz")], waitingPhone := [(7, "h1")],
          subs := [("h1", pend0)] }).1).subs = [("h1", pend0)] ∧
      (handle_new true (.ok none) 50
        ⟨1, 7, some "/new", none, none, none, none⟩
        { initSt with
          waitingFeedback := [7], branchOf := [(7, "Jomiy")],
          userName := [(7, "Aziz")], waitingPhone := [(7, "h1")],
          subs := [("h1", pend0)] }).2 =
        [Out.reply 1 branchPromptText]) :=
  ⟨rfl, handle_new_clears_session true (.ok none) 50
    ⟨1, 7, some "/new", none, none, none, none⟩
    { initSt with
      waitingFeedback := [7], branchOf := [(7, "Jomiy")],
      userName := [(7, "Aziz")], waitingPhone := [(7, "h1")],
      subs := [("h1", pend0)] } rfl⟩

/-- C7 counterexample: a command-like message ("/oops") arriving in the
awaiting-feedback-text state is dropped without any reply - the handler
returns before the re-prompt, which is emitted only for empty text - so
the claim that command-like text is rejected with a re-prompt fails. -/
theorem handle_feedback_command_silently_ignored :
    handle_feedback (fun _ => none)
        ⟨2, 7, some "/oops", none, none, none, none⟩ "h1"
        { initSt with
          waitingFeedback := [7], branchOf := [(7, "Chilonzor")] } =
      ({ initSt with
         waitingFeedback := [7], branchOf := [(7, "Chilonzor")] }, []) := by
  rfl

/-- C7 (amended): in the awaiting-feedback-text state (and not in file
mode), command-like text is silently ignored - no reply and no state
change - while empty text is rejected with a re-prompt and no state
change; neither creates a pending submission.  Non-empty non-command text
removes the waiting marker, consumes the stored branch and creates the
pending submission, moving the user to the attachment decision. -/
theorem handle_feedback_text_validation (dl : String → Option String)
    (msg : Msg) (newHash : String) (st : St)
    (hfiles : mLookup st.waitingFiles msg.fromUser = none)
    (hwait : sMem st.waitingFeedback msg.fromUser = true) :
    (startsWithSlash (strOr msg.text (strOr msg.caption "")) = true →
      handle_feedback dl msg newHash st = (st, [])) ∧
    (strOr msg.text (strOr msg.caption "") = "" →
      handle_feedback dl msg newHash st =
        (st, [Out.reply msg.messageId askTextReply])) ∧
    (startsWithSlash (strOr msg.text (strOr msg.caption "")) = false →
      strOr msg.text (strOr msg.caption "") ≠ "" →
      handle_feedback dl msg newHash st =
        ({ st with
            waitingFeedback := sErase st.waitingFeedback msg.fromUser,
            branchOf := mErase st.branchOf msg.fromUser,
            subs := mInsert st.subs newHash
              ⟨strOr msg.text (strOr msg.caption ""),
               (mLookup st.branchOf msg.fromUser).getD "Unknown", []⟩ },
          [Out.reply msg.messageId attachQuestionText])) := by
  have hnf : (mLookup st.waitingFiles msg.fromUser).isSome = false := by
    rw [hfiles]; rfl
  refine ⟨?_, ?_, ?_⟩
  · intro hcmd
    simp only [handle_feedback, hnf, hwait, Bool.false_eq_true, if_false,
      Bool.not_true, hcmd, if_true]
  · intro hempty
    simp only [handle_feedback, hnf, hwait, Bool.false_eq_true, if_false,
      Bool.not_true, hempty]
    rfl
  · intro hcmd hne
    have hbe : (strOr msg.text (strOr msg.caption "") == "") = false := by
      simpa using hne
    simp only [handle_feedback, hnf, hwait, Bool.false_eq_true, if_false,
      Bool.not_true, hcmd, hbe]

/-- Witness for the amended C7 theorem: the three input classes at a
concrete awaiting-feedback-text state. -/
theorem handle_feedback_text_validation_witness :
    (mLookup ({ initSt with
        waitingFeedback := [7], branchOf := [(7, "Chilonzor")] } : St).waitingFiles 7 = none ∧
      sMem ({ initSt with
        waitingFeedback := [7], branchOf := [(7, "Chilonzor")] } : St).waitingFeedback 7 = true) ∧
    handle_feedback (fun _ => none)
        ⟨2, 7, some "/stats", none, none, none, none⟩ "h1"
        { initSt with
          waitingFeedback := [7], branchOf := [(7, "Chilonzor")] } =
      ({ initSt with
         waitingFeedback := [7], branchOf := [(7, "Chilonzor")] }, []) ∧
    handle_feedback (fun _ => none)
        ⟨3, 7, none, none, none, none, none⟩ "h1"
        { initSt with
          waitingFeedback := [7], branchOf := [(7, "Chilonzor")] } =
      ({ initSt with
         waitingFeedback := [7], branchOf := [(7, "Chilonzor")] },
        [Out.reply 3 askTextReply]) ∧
    handle_feedback (fun _ => none)
        ⟨4, 7, some "Broken AC", none, none, none, none⟩ "h1"
        { initSt with
          waitingFeedback := [7], branchOf := [(7, "Chilonzor")] } =
      ({ ({ initSt with
            waitingFeedback := [7], branchOf := [(7, "Chilonzor")] } : St) with
          waitingFeedback := sErase [7] 7,
          branchOf := mErase [(7, "Chilonzor")] 7,
          subs := mInsert [] "h1" ⟨"Broken AC", "Chilonzor", []⟩ },
        [Out.reply 4 attachQuestionText]) :=
  ⟨⟨rfl, rfl⟩,
    (handle_feedback_text_validation (fun _ => none)
      ⟨2, 7, some "/stats", none, none, none, none⟩ "h1"
      { initSt with
        waitingFeedback := [7], branchOf := [(7, "Chilonzor")] } rfl rfl).1 rfl,
    (handle_feedback_text_validation (fun _ => none)
      ⟨3, 7, none, none, none, none, none⟩ "h1"
      { initSt with
        waitingFeedback := [7], branchOf := [(7, "Chilonzor")] } rfl rfl).2.1 rfl,
    (handle_feedback_text_validation (fun _ => none)
      ⟨4, 7, some "Broken AC", none, none, none, none⟩ "h1"
      { initSt with
        waitingFeedback := [7], branchOf := [(7, "Chilonzor")] } rfl rfl).2.2 rfl
      (by decide)⟩

/-- C8: an event referencing a pending-submission token that is no longer
in the map answers with the "not found, please resubmit" reply as an
ordinary flow outcome: the file-upload handler, the name branch and the
phone branch of the details handler each return that reply. -/
theorem stale_reference_answers_not_found (dl : String → Option String)
    (avail : Bool) (hashFn : Nat → String) (now : Int) (db : Db) :
    (∀ (msg : Msg) (st : St) (fh : String),
      mLookup st.waitingFiles msg.fromUser = some fh →
      mLookup st.subs fh = none →
      (handle_file_upload dl msg msg.fromUser st).2 =
        [Out.reply msg.messageId notFoundReply]) ∧
    (∀ (msg : Msg) (st : St) (fh : String),
      mLookup st.waitingName msg.fromUser = some fh →
      mLookup st.subs fh = none →
      (handle_details_submission avail hashFn now msg st db).2.2 =
        [Out.reply msg.messageId notFoundReply]) ∧
    (∀ (msg : Msg) (st : St) (fh : String),
      mLookup st.waitingName msg.fromUser = none →
      mLookup st.waitingPhone msg.fromUser = some fh →
      mLookup st.subs fh = none →
      (handle_details_submission avail hashFn now msg st db).2.2 =
        [Out.reply msg.messageId notFoundReply]) := by
  refine ⟨?_, ?_, ?_⟩
  · intro msg st fh hw hs
    simp only [handle_file_upload, hw, hs]
  · intro msg st fh hw hs
    simp only [handle_details_submission, hw, hs]
  · intro msg st fh hn hw hs
    simp only [handle_details_submission, hn, hw, hs]

/-- Witness for C8: the three stale-token scenarios at concrete states
whose pending map is empty. -/
theorem stale_reference_answers_not_found_witness :
    (mLookup ({ initSt with waitingFiles := [(7, "h1")] } : St).waitingFiles
        7 = some "h1" ∧
      mLookup ({ initSt with waitingFiles := [(7, "h1")] } : St).subs
        "h1" = none ∧
      mLookup ({ initSt with waitingName := [(7, "h1")] } : St).waitingName
        7 = some "h1" ∧
      mLookup ({ initSt with waitingPhone := [(7, "h1")] } : St).waitingName
        7 = none ∧
      mLookup ({ initSt with waitingPhone := [(7, "h1")] } : St).waitingPhone
        7 = some "h1") ∧
    (handle_file_upload (fun _ => none)
        ⟨5, 7, none, none, some "f1", none, none⟩ 7
        { initSt with waitingFiles := [(7, "h1")] }).2 =
      [Out.reply 5 notFoundReply] ∧
    (handle_details_submission true (fun _ => "uh") 0
        ⟨6, 7, some "Aziz", none, none, none, none⟩
        { initSt with waitingName := [(7, "h1")] } initDb).2.2 =
      [Out.reply 6 notFoundReply] ∧
    (handle_details_submission true (fun _ => "uh") 0
        ⟨8, 7, some "+998901234567", none, none, none, none⟩
        { initSt with waitingPhone := [(7, "h1")] } initDb).2.2 =
      [Out.reply 8 notFoundReply] :=
  ⟨⟨rfl, rfl, rfl, rfl, rfl⟩,
    (stale_reference_answers_not_found (fun _ => none) true (fun _ => "uh")
      0 initDb).1 ⟨5, 7, none, none, some "f1", none, none⟩
      { initSt with waitingFiles := [(7, "h1")] } "h1" rfl rfl,
    (stale_reference_answers_not_found (fun _ => none) true (fun _ => "uh")
      0 initDb).2.1 ⟨6, 7, some "Aziz", none, none, none, none⟩
      { initSt with waitingName := [(7, "h1")] } "h1" rfl rfl,
    (stale_reference_answers_not_found (fun _ => none) true (fun _ => "uh")
      0 initDb).2.2 ⟨8, 7, some "+998901234567", none, none, none, none⟩
      { initSt with waitingPhone := [(7, "h1")] } "h1" rfl rfl rfl⟩

theorem handle_file_upload_userName (dl : String → Option String)
    (msg : Msg) (uid : Nat) (st : St) :
    ((handle_file_upload dl msg uid st).1).userName = st.userName := by
  simp only [handle_file_upload]
  repeat' split <;> try rfl

theorem handle_feedback_userName (dl : String → Option String) (msg : Msg)
    (newHash : String) (st : St) :
    ((handle_feedback dl msg newHash st).1).userName = st.userName := by
  simp only [handle_feedback]
  split
  · exact handle_file_upload_userName dl msg msg.fromUser st
  · repeat' split <;> try rfl

/-- C10: a message whose text is absent or begins with a slash never
passes `WaitingForDetailsFilter`, so the dispatch routes it away from the
details handler even while a waiting_name or waiting_phone key exists:
the stored user-name map and the persistent store are untouched, and such
a message is never recorded as a display name or phone number. -/
theorem commands_never_stored_as_details (dl : String → Option String)
    (avail : Bool) (hashFn : Nat → String) (now : Int) (msg : Msg)
    (newHash : String) (st : St) (db : Db)
    (h : msg.text = none ∨
      ∃ s, msg.text = some s ∧ startsWithSlash s = true) :
    waitingForDetailsFilter st msg.fromUser msg.text = false ∧
    dispatchMessage dl avail hashFn now msg newHash st db =
      ((handle_feedback dl msg newHash st).1, db,
        (handle_feedback dl msg newHash st).2) ∧
    ((dispatchMessage dl avail hashFn now msg newHash st db).1).userName =
      st.userName ∧
    (dispatchMessage dl avail hashFn now msg newHash st db).2.1 = db := by
  have hfilter : waitingForDetailsFilter st msg.fromUser msg.text = false := by
    rcases h with hnone | ⟨s, hsome, hslash⟩
    · rw [hnone]; rfl
    · rw [hsome]
      by_cases hse : s == ""
      · simp only [waitingForDetailsFilter, hse, if_true]
      · simp only [waitingForDetailsFilter, hse, Bool.false_eq_true,
          if_false, hslash, if_true]
  have hdisp : dispatchMessage dl avail hashFn now msg newHash st db =
      ((handle_feedback dl msg newHash st).1, db,
        (handle_feedback dl msg newHash st).2) := by
    simp only [dispatchMessage, hfilter, Bool.false_eq_true, if_false]
  refine ⟨hfilter, hdisp, ?_, ?_⟩
  · rw [hdisp]
    exact handle_feedback_userName dl msg newHash st
  · rw [hdisp]

/-- Witness for C10: a /start command sent while the user is in the
awaiting-name state. -/
theorem commands_never_stored_as_details_witness :
    ((⟨9, 7, some "/start", none, none, none, none⟩ : Msg).text = none ∨
      ∃ s, (⟨9, 7, some "/start", none, none, none, none⟩ : Msg).text =
        some s ∧ startsWithSlash s = true) ∧
    (waitingForDetailsFilter
        { initSt with waitingName := [(7, "h1")], subs := [("h1", pend0)] }
        7 (some "/start") = false ∧
      dispatchMessage (fun _ => none) true (fun _ => "uh") 0
          ⟨9, 7, some "/start", none, none, none, none⟩ "h2"
          { initSt with
            waitingName := [(7, "h1")], subs := [("h1", pend0)] } initDb =
        ((handle_feedback (fun _ => none)
            ⟨9, 7, some "/start", none, none, none, none⟩ "h2"
            { initSt with
              waitingName := [(7, "h1")], subs := [("h1", pend0)] }).1, initDb,
          (handle_feedback (fun _ => none)
            ⟨9, 7, some "/start", none, none, none, none⟩ "h2"
            { initSt with
              waitingName := [(7, "h1")], subs := [("h1", pend0)] }).2) ∧
      ((dispatchMessage (fun _ => none) true (fun _ => "uh") 0
          ⟨9, 7, some "/start", none, none, none, none⟩ "h2"
          { initSt with
            waitingName := [(7, "h1")], subs := [("h1", pend0)] } initDb).1).userName =
        ({ initSt with
           waitingName := [(7, "h1")], subs := [("h1", pend0)] } : St).userName ∧
      (dispatchMessage (fun _ => none) true (fun _ => "uh") 0
          ⟨9, 7, some "/start", none, none, none, none⟩ "h2"
          { initSt with
            waitingName := [(7, "h1")], subs := [("h1", pend0)] } initDb).2.1 = initDb) :=
  ⟨Or.inr ⟨"/start", rfl, rfl⟩,
    commands_never_stored_as_details (fun _ => none) true (fun _ => "uh") 0
      ⟨9, 7, some "/start", none, none, none, none⟩ "h2"
      { initSt with waitingName := [(7, "h1")], subs := [("h1", pend0)] }
      initDb (Or.inr ⟨"/start", rfl, rfl⟩)⟩

theorem process_media_group_fields (dl : String → Option String)
    (gid : String) (uid : Nat) (fh : String) (st : St)
    (h : st.processing.contains gid = false) :
    ((process_media_group dl gid uid fh st).1).processing =
      st.processing ∧
    ((process_media_group dl gid uid fh st).1).mediaGroups =
      mErase st.mediaGroups gid := by
  simp only [process_media_group, h, Bool.false_eq_true, if_false]
  constructor <;> (repeat' split) <;> rfl

/-- C3: batch processing is idempotent per media-group id.  A second
invocation racing with one that still holds the in-flight marker returns
with no state change and no prompt; and a second invocation after a first
completed one (which consumed the batch entry) is also a no-op: same
state, no prompt, hence no second mutation of the pending submission's
attachment list. -/
theorem process_media_group_idempotent (dl : String → Option String)
    (gid : String) (uid : Nat) (fh : String) (st : St) :
    (st.processing.contains gid = true →
      process_media_group dl gid uid fh st = (st, [])) ∧
    (st.processing.contains gid = false →
      process_media_group dl gid uid fh
          (process_media_group dl gid uid fh st).1 =
        ((process_media_group dl gid uid fh st).1, [])) := by
  constructor
  · intro h
    simp only [process_media_group, h, if_true]
  · intro h
    obtain ⟨hp, hm⟩ := process_media_group_fields dl gid uid fh st h
    generalize hst : (process_media_group dl gid uid fh st).1 = st1
    rw [hst] at hp hm
    have h2 : st1.processing.contains gid = false := by rw [hp]; exact h
    have h3 : mLookup st1.mediaGroups gid = none := by
      rw [hm]; exact mLookup_mErase_self _ _
    simp only [process_media_group, h2, Bool.false_eq_true, if_false, h3]
    rw [hm, mErase_mErase, ← hm]

/-- Witness for C3: a concurrent invocation while the marker is held, and
a sequential re-invocation after a completed first run. -/
theorem process_media_group_idempotent_witness :
    (({ initSt with processing := ["g1"] } : St).processing.contains "g1" =
        true ∧
      process_media_group (fun _ => none) "g1" 7 "h1"
          { initSt with processing := ["g1"] } =
        ({ initSt with processing := ["g1"] }, [])) ∧
    ((initSt : St).processing.contains "g1" = false ∧
      process_media_group (fun _ => none) "g1" 7 "h1"
          (process_media_group (fun _ => none) "g1" 7 "h1" initSt).1 =
        ((process_media_group (fun _ => none) "g1" 7 "h1" initSt).1, [])) :=
  ⟨⟨rfl, (process_media_group_idempotent (fun _ => none) "g1" 7 "h1"
      { initSt with processing := ["g1"] }).1 rfl⟩,
    ⟨rfl, (process_media_group_idempotent (fun _ => none) "g1" 7 "h1"
      initSt).2 rfl⟩⟩

theorem mLookup_singleton_self [BEq α] [LawfulBEq α] (k : α) (v : β) :
    mLookup [(k, v)] k = some v := by
  simp [mLookup]

/-- C9: the end-to-end anonymous scenario.  From an idle session and an
empty store, the sequence /new, branch "Chilonzor", text "Broken AC",
no attachments, stay anonymous persists exactly one feedback record with
that branch and message, no name, no phone and zero attachment rows,
updates the rate-limit record, and destroys the session and the pending
submission (the global state returns to the initial empty state). -/
theorem scenario_anonymous_flow (dl : String → Option String)
    (hashFn : Nat → String) (uid : Nat) (fh : String) (now now2 : Int)
    (mid1 mid2 : Nat) :
    handle_keep_anonymous true hashFn now2 uid fh
        ((handle_file_attachment_no fh
          ((handle_feedback dl
            ⟨mid2, uid, some "Broken AC", none, none, none, none⟩ fh
            ((handle_branch_selection uid "Chilonzor"
              ((handle_new true (.ok none) now
                ⟨mid1, uid, some "/new", none, none, none, none⟩
                initSt).1)).1)).1)).1)
        initDb =
      (initSt,
        ⟨1, [(0, "Broken AC", "Chilonzor", none, none)], [],
          [(hashFn uid, now2)]⟩,
        [Out.edit savedAnonText]) := by
  have e1 : (handle_new true (.ok none) now
      ⟨mid1, uid, some "/new", none, none, none, none⟩ initSt).1 =
      initSt := rfl
  rw [e1]
  have e2 : (handle_branch_selection uid "Chilonzor" initSt).1 =
      { initSt with
        waitingFeedback := [uid], branchOf := [(uid, "Chilonzor")] } := rfl
  rw [e2]
  have hs1 : (("Broken AC" : String) == "") = false := rfl
  have hs2 : startsWithSlash "Broken AC" = false := rfl
  have e3 : (handle_feedback dl
      ⟨mid2, uid, some "Broken AC", none, none, none, none⟩ fh
      { initSt with
        waitingFeedback := [uid], branchOf := [(uid, "Chilonzor")] }).1 =
      { initSt with subs := [(fh, ⟨"Broken AC", "Chilonzor", []⟩)] } := by
    simp [handle_feedback, strOr, hs1, hs2, sMem_singleton_self,
      sErase_singleton_self, mErase_singleton_self, mLookup_singleton_self,
      mInsert, mErase, initSt, mLookup, sMem]
  rw [e3]
  have e4 : (handle_file_attachment_no fh
      { initSt with subs := [(fh, ⟨"Broken AC", "Chilonzor", []⟩)] }).1 =
      { initSt with subs := [(fh, ⟨"Broken AC", "Chilonzor", []⟩)] } := by
    simp only [handle_file_attachment_no, mLookup_singleton_self]
  rw [e4]
  simp [handle_keep_anonymous, save_feedback, save_feedback_to_db,
    update_user_submission_time, mLookup_singleton_self,
    mErase_singleton_self, mInsert, mErase, initSt, initDb]

theorem collectRefs_length_le (dl : String → Option String)
    (refs : List (String × String)) (processed : List String) :
    (collectRefs dl refs processed).length ≤ refs.length := by
  induction refs generalizing processed with
  | nil => simp [collectRefs]
  | cons r rest ih =>
    obtain ⟨kind, fid⟩ := r
    simp only [collectRefs]
    by_cases hmem : processed.contains fid = true
    · rw [if_pos hmem]
      exact (ih processed).trans (Nat.le_succ _)
    · rw [if_neg hmem]
      cases hdl : dl fid with
      | none =>
        simp only [List.length_cons]
        exact (ih processed).trans (Nat.le_succ _)
      | some p =>
        simp only [List.length_cons]
        exact Nat.succ_le_succ (ih (fid :: processed))

theorem msgRefs_length_le (msgs : List Msg)
    (hone : ∀ m ∈ msgs, m.photo = none ∨ m.document = none) :
    (msgRefs msgs).length ≤ msgs.length := by
  induction msgs with
  | nil => simp [msgRefs]
  | cons m rest ih =>
    have hm := hone m (List.mem_cons_self m rest)
    have hr := ih (fun x hx => hone x (List.mem_cons_of_mem m hx))
    have hlen : (refsOfMsg m).length ≤ 1 := by
      rcases hm with h1 | h1
      · cases hd : m.document <;> simp [refsOfMsg, h1, hd]
      · cases hp : m.photo <;> simp [refsOfMsg, h1, hp]
    simp only [msgRefs, List.length_append, List.length_cons]
    omega

theorem collectRefs_mem (dl : String → Option String)
    (refs : List (String × String)) (processed : List String) :
    ∀ e ∈ collectRefs dl refs processed,
      ∃ fid, fid ∉ processed ∧ dl fid = some e.1 := by
  induction refs generalizing processed with
  | nil => intro e he; simp [collectRefs] at he
  | cons r rest ih =>
    obtain ⟨kind, fid⟩ := r
    intro e he
    simp only [collectRefs] at he
    by_cases hmem : processed.contains fid = true
    · rw [if_pos hmem] at he
      exact ih processed e he
    · rw [if_neg hmem] at he
      cases hdl : dl fid with
      | none =>
        simp only [hdl] at he
        exact ih processed e he
      | some p =>
        simp only [hdl] at he
        rcases List.mem_cons.mp he with heq | hmem2
        · refine ⟨fid, fun hc => hmem ((contains_iff_mem processed fid).mpr hc), ?_⟩
          rw [heq, hdl]
        · obtain ⟨fid2, hf1, hf2⟩ := ih (fid :: processed) e hmem2
          exact ⟨fid2, fun hc => hf1 (List.mem_cons_of_mem _ hc), hf2⟩

theorem collectRefs_paths_nodup (dl : String → Option String)
    (hinj : ∀ a b p, dl a = some p → dl b = some p → a = b)
    (refs : List (String × String)) (processed : List String) :
    ((collectRefs dl refs processed).map Prod.fst).Nodup := by
  induction refs generalizing processed with
  | nil => simp [collectRefs]
  | cons r rest ih =>
    obtain ⟨kind, fid⟩ := r
    simp only [collectRefs]
    by_cases hmem : processed.contains fid = true
    · rw [if_pos hmem]
      exact ih processed
    · rw [if_neg hmem]
      cases hdl : dl fid with
      | none => exact ih processed
      | some p =>
        simp only [List.map_cons, List.nodup_cons]
        refine ⟨?_, ih (fid :: processed)⟩
        intro hp
        obtain ⟨e, he, heq⟩ := List.mem_map.mp hp
        obtain ⟨fid2, hf1, hf2⟩ :=
          collectRefs_mem dl rest (fid :: processed) e he
        have hfe : fid2 = fid := hinj fid2 fid p (heq ▸ hf2) hdl
        exact hf1 (hfe ▸ List.mem_cons_self fid processed)

theorem collectRefs_complete (dl : String → Option String)
    (refs : List (String × String)) (processed : List String)
    (hdl : ∀ e ∈ refs, dl e.2 ≠ none) :
    ∀ e ∈ refs, e.2 ∈ processed ∨
      (dl e.2).getD "" ∈ (collectRefs dl refs processed).map Prod.fst := by
  induction refs generalizing processed with
  | nil => intro e he; simp at he
  | cons r rest ih =>
    obtain ⟨kind, fid⟩ := r
    intro e he
    simp only [collectRefs]
    by_cases hmem : processed.contains fid = true
    · rw [if_pos hmem]
      rcases List.mem_cons.mp he with heq | hmem2
      · left
        rw [heq]
        exact (contains_iff_mem processed fid).mp hmem
      · exact ih processed
          (fun x hx => hdl x (List.mem_cons_of_mem _ hx)) e hmem2
    · rw [if_neg hmem]
      cases hdl2 : dl fid with
      | none =>
        rcases List.mem_cons.mp he with heq | hmem2
        · have hne2 := hdl e he
          rw [heq] at hne2
          exact absurd hdl2 hne2
        · simp only [hdl2]
          exact ih processed
            (fun x hx => hdl x (List.mem_cons_of_mem _ hx)) e hmem2
      | some p =>
        simp only [hdl2]
        rcases List.mem_cons.mp he with heq | hmem2
        · right
          rw [heq]
          simp [hdl2]
        · have hres := ih (fid :: processed)
            (fun x hx => hdl x (List.mem_cons_of_mem _ hx)) e hmem2
          rcases hres with hl | hr
          · rcases List.mem_cons.mp hl with hfe | hpe
            · right
              rw [hfe, hdl2]
              simp
            · exact Or.inl hpe
          · right
            simp only [List.map_cons]
            exact List.mem_cons_of_mem _ hr

/-- C4: processing a collected batch whose target pending submission
exists, where every message carries at most one attachment and every
referenced file resolves to a stored path (distinct references resolving
to distinct paths), appends at most one attachment per batched event,
never re-appends a path already stored in the submission, stores at most
one entry per distinct reference and at least one for every reference not
already stored, and emits exactly one combined prompt addressed to the
batch's last message. -/
theorem process_media_group_batch (dl : String → Option String)
    (gid : String) (uid : Nat) (fh : String) (st : St) (msgs : List Msg)
    (fd : Pending)
    (hproc : st.processing.contains gid = false)
    (hmg : mLookup st.mediaGroups gid = some msgs)
    (hne : msgs.isEmpty = false)
    (hsub : mLookup st.subs fh = some fd)
    (hone : ∀ m ∈ msgs, m.photo = none ∨ m.document = none)
    (href : msgRefs msgs ≠ [])
    (hdl : ∀ e ∈ msgRefs msgs, dl e.2 ≠ none)
    (hinj : ∀ a b p, dl a = some p → dl b = some p → a = b) :
    ∃ newFiles : List (String × String),
      mLookup ((process_media_group dl gid uid fh st).1).subs fh =
        some { fd with files := fd.files ++ newFiles } ∧
      newFiles.length ≤ msgs.length ∧
      (∀ e ∈ newFiles, e.1 ∉ fd.files.map Prod.fst) ∧
      (newFiles.map Prod.fst).Nodup ∧
      (∀ e ∈ msgRefs msgs, (dl e.2).getD "" ∈ fd.files.map Prod.fst ∨
        (dl e.2).getD "" ∈ newFiles.map Prod.fst) ∧
      (∃ txt, (process_media_group dl gid uid fh st).2 =
        [Out.reply (((msgs.getLast?).map Msg.messageId).getD 0) txt]) := by
  have hcomp := collectRefs_complete dl (msgRefs msgs) [] hdl
  have hFPne : (collectRefs dl (msgRefs msgs) []).isEmpty = false := by
    obtain ⟨e0, he0⟩ := List.exists_mem_of_ne_nil (msgRefs msgs) href
    have h0 := hcomp e0 he0
    have hmemFP : (dl e0.2).getD "" ∈
        (collectRefs dl (msgRefs msgs) []).map Prod.fst := by
      rcases h0 with h | h
      · exact absurd h (List.not_mem_nil _)
      · exact h
    cases hc : collectRefs dl (msgRefs msgs) [] with
    | nil => rw [hc] at hmemFP; simp at hmemFP
    | cons a l => rfl
  simp only [process_media_group, hproc, Bool.false_eq_true, if_false,
    hmg, hne, hsub, hFPne]
  refine ⟨(collectRefs dl (msgRefs msgs) []).filter
    (fun e => !((fd.files.map Prod.fst).contains e.1)), ?_, ?_, ?_, ?_, ?_,
    ⟨_, rfl⟩⟩
  · by_cases hnf : ((collectRefs dl (msgRefs msgs) []).filter
        (fun e => !((fd.files.map Prod.fst).contains e.1))).isEmpty = true
    · rw [if_pos hnf]
      have hfe : ((collectRefs dl (msgRefs msgs) []).filter
          (fun e => !((fd.files.map Prod.fst).contains e.1))) = [] :=
        List.isEmpty_iff.mp hnf
      rw [hfe]
      simp [hsub]
    · rw [if_neg hnf]
      exact mLookup_mInsert_self _ _ _
  · calc ((collectRefs dl (msgRefs msgs) []).filter
        (fun e => !((fd.files.map Prod.fst).contains e.1))).length
        ≤ (collectRefs dl (msgRefs msgs) []).length :=
          List.length_filter_le _ _
      _ ≤ (msgRefs msgs).length := collectRefs_length_le dl _ []
      _ ≤ msgs.length := msgRefs_length_le msgs hone
  · intro e he hmem
    have h1 := List.of_mem_filter he
    rw [(contains_iff_mem (fd.files.map Prod.fst) e.1).mpr hmem] at h1
    simp at h1
  · exact List.Nodup.sublist
      ((List.filter_sublist _).map Prod.fst)
      (collectRefs_paths_nodup dl hinj (msgRefs msgs) [])
  · intro e he
    have h0 := hcomp e he
    rcases h0 with h | h
    · exact absurd h (List.not_mem_nil _)
    · by_cases hex : (dl e.2).getD "" ∈ fd.files.map Prod.fst
      · exact Or.inl hex
      · right
        obtain ⟨x, hx, hxe⟩ := List.mem_map.mp h
        refine List.mem_map.mpr ⟨x, ?_, hxe⟩
        refine List.mem_filter.mpr ⟨hx, ?_⟩
        have hnm : x.1 ∉ fd.files.map Prod.fst := by
          rw [hxe]; exact hex
        cases hc : (fd.files.map Prod.fst).contains x.1 with
        | false => rfl
        | true => exact absurd ((contains_iff_mem _ _).mp hc) hnm

/-- First message of the witness batch: a photo with file_id "f1". -/
def mw1 : Msg := ⟨1, 7, none, none, some "f1", none, some "g1"⟩

/-- Second message of the witness batch: the same photo reference. -/
def mw2 : Msg := ⟨2, 7, none, none, some "f1", none, some "g1"⟩

/-- Download oracle of the witness: resolves "f1" to path "p1". -/
def dlW : String → Option String :=
  fun fid => if fid == "f1" then some "p1" else none

/-- Witness state: the collected two-message batch under media-group id
"g1" and a pending submission under hash "h1". -/
def stW : St :=
  { initSt with
    mediaGroups := [("g1", [mw1, mw2])], subs := [("h1", pend0)] }

/-- Witness for C4: a two-event batch naming the same attachment twice. -/
theorem process_media_group_batch_witness :
    (stW.processing.contains "g1" = false ∧
      mLookup stW.mediaGroups "g1" = some [mw1, mw2] ∧
      ([mw1, mw2] : List Msg).isEmpty = false ∧
      mLookup stW.subs "h1" = some pend0 ∧
      (∀ m ∈ [mw1, mw2], m.photo = none ∨ m.document = none) ∧
      msgRefs [mw1, mw2] ≠ [] ∧
      (∀ e ∈ msgRefs [mw1, mw2], dlW e.2 ≠ none)) ∧
    (∃ newFiles : List (String × String),
      mLookup ((process_media_group dlW "g1" 7 "h1" stW).1).subs "h1" =
        some { pend0 with files := pend0.files ++ newFiles } ∧
      newFiles.length ≤ ([mw1, mw2] : List Msg).length ∧
      (∀ e ∈ newFiles, e.1 ∉ pend0.files.map Prod.fst) ∧
      (newFiles.map Prod.fst).Nodup ∧
      (∀ e ∈ msgRefs [mw1, mw2],
        (dlW e.2).getD "" ∈ pend0.files.map Prod.fst ∨
        (dlW e.2).getD "" ∈ newFiles.map Prod.fst) ∧
      (∃ txt, (process_media_group dlW "g1" 7 "h1" stW).2 =
        [Out.reply ((([mw1, mw2] : List Msg).getLast?.map
          Msg.messageId).getD 0) txt])) :=
  ⟨⟨rfl, rfl, rfl, rfl, by decide, by decide, by decide⟩,
    process_media_group_batch dlW "g1" 7 "h1" stW [mw1, mw2] pend0
      rfl rfl rfl rfl (by decide) (by decide) (by decide)
      (by
        intro a b p ha hb
        by_cases h1 : (a == "f1") = true
        · by_cases h2 : (b == "f1") = true
          · rw [eq_of_beq h1, eq_of_beq h2]
          · rw [dlW, if_neg h2] at hb
            exact absurd hb (by simp)
        · rw [dlW, if_neg h1] at ha
          exact absurd ha (by simp))⟩
